import Mathlib

/-!
Shallow embedding of the sqlboiler postgres driver and relationship-text
generation (package `bdb/drivers` plus the relationship text builder), and
proofs about its naming, type-translation and introspection behaviour.

Go standard-library string operations used by the source are embedded as
executable Lean functions on `String`/`List Char`; machinery from the
`strmangle` and `bdb` packages that is not part of the inspected source is
modelled from the specification and marked as such in doc comments.
-/

/-- Embeds Go `strings.TrimSuffix(s, suffix)`: `s` without the trailing
`suffix` when present, otherwise `s` unchanged. -/
def goTrimSuffix (s suffix : String) : String :=
  if suffix.data.length ≤ s.data.length ∧
      s.data.drop (s.data.length - suffix.data.length) = suffix.data then
    ⟨s.data.take (s.data.length - suffix.data.length)⟩
  else s

/-- Embeds Go `strings.TrimPrefix(col.Type, "null.")` as used by the
assignment-expression construction: drops a leading `"null."` when present. -/
def trimNullDot (s : String) : String :=
  if s.data.take 5 = "null.".data then ⟨s.data.drop 5⟩ else s

/-- Embeds Go `strings.ToLower(name[:1])`: the first character of a
(non-empty) identifier, lower-cased. -/
def lowerFirst (s : String) : String :=
  ⟨(s.data.take 1).map Char.toLower⟩

/-- Embeds Go `strings.Replace(s, "_", " ", -1)`. -/
def underscoresToSpaces (s : String) : String :=
  ⟨s.data.map (fun c => if c = '_' then ' ' else c)⟩

/-- Capitalisation state machine behind `titleCase`: underscores are dropped
and the character following an underscore (or the first character) is
upper-cased. -/
def titleCaseChars : List Char → Bool → List Char
  | [], _ => []
  | c :: rest, cap =>
    if c = '_' then titleCaseChars rest true
    else (if cap then c.toUpper else c) :: titleCaseChars rest false

/-- Modelled from the spec: `strmangle.TitleCase`, the shared casing utility
(an external collaborator, not part of the inspected source). Per the spec's
naming examples it maps a snake_case identifier to its title-cased identifier
form, e.g. `"billing_customer" ↦ "BillingCustomer"`. -/
def titleCase (s : String) : String :=
  ⟨titleCaseChars s.data true⟩

/-- Modelled from the spec: `strmangle.CamelCase` (external inflection/casing
collaborator): the title-cased form with its first character lower-cased. -/
def camelCase (s : String) : String :=
  match titleCaseChars s.data true with
  | [] => ""
  | c :: rest => ⟨c.toLower :: rest⟩

/-- Modelled from the spec: `strmangle.Singular` (external pluralization-rules
collaborator). Regular English nouns as used throughout the spec's examples:
a trailing "s" is dropped, e.g. `"employees" ↦ "employee"`. -/
def singular (s : String) : String :=
  if s.data.getLast? = some 's' then ⟨s.data.take (s.data.length - 1)⟩ else s

/-- Modelled from the spec: `strmangle.Plural` (external pluralization-rules
collaborator). Regular English nouns: an "s" is appended unless already
present, e.g. `"employee" ↦ "employees"`. -/
def plural (s : String) : String :=
  if s.data.getLast? = some 's' then s else ⟨s.data ++ ['s']⟩

/-- Embeds `bdb.Column`: one column descriptor of the schema graph. `Typ` embeds the
Go field `Type` (a Lean keyword): the semantic (target-language) type, the
zero value `""` before translation. -/
structure Column where
  Name : String
  Typ : String
  Default : String
  DBType : String
  Nullable : Bool
  Unique : Bool
  Validated : Bool
deriving Repr, DecidableEq

/-- Embeds `bdb.PrimaryKey`: constraint name and ordered column names. -/
structure PrimaryKey where
  Name : String
  Columns : List String
deriving Repr, DecidableEq

/-- Embeds `bdb.ForeignKey`: one (constraint, column) foreign-key fact, with the
source and destination columns' nullability and uniqueness. -/
structure ForeignKey where
  Name : String
  Table : String
  Column : String
  Nullable : Bool
  Unique : Bool
  ForeignTable : String
  ForeignColumn : String
  ForeignColumnNullable : Bool
  ForeignColumnUnique : Bool
deriving Repr, DecidableEq

/-- Embeds `bdb.ToManyRelationship`: the "many" side derived from a foreign key
(or synthesized through a join table). -/
structure ToManyRelationship where
  Table : String
  Column : String
  Nullable : Bool
  Unique : Bool
  ForeignTable : String
  ForeignColumn : String
  ForeignColumnNullable : Bool
  ForeignColumnUnique : Bool
  ToJoinTable : Bool
  JoinLocalColumn : String
deriving Repr, DecidableEq

/-- Embeds `bdb.Table`: name, columns, optional primary key and foreign keys. -/
structure Table where
  Name : String
  Columns : List Column
  PKey : Option PrimaryKey
  FKeys : List ForeignKey
deriving Repr, DecidableEq

/-- Modelled from the spec: `bdb.Table.GetColumn`, column lookup by name
within a table (columns are unique within a table); a missing column is a
failure of the generation run, embedded as `none`. -/
def Table.GetColumn (t : Table) (name : String) : Option Column :=
  t.Columns.find? (fun c => c.Name = name)

/-- Modelled from the spec: `bdb.GetTable`, table lookup by name in the
schema graph; a missing table is a failure, embedded as `none`. -/
def GetTable (tables : List Table) (name : String) : Option Table :=
  tables.find? (fun t => t.Name = name)

/-- Embeds `validatedTypes`: types that cannot be zero values in the database. -/
def validatedTypes : List String := ["uuid"]

/-- Embeds `isValidated`: checks if the database type is in the validatedTypes list. -/
def isValidated (typ : String) : Bool :=
  validatedTypes.any (fun v => v = typ)

/-- Embeds `TranslateColumnType`: converts postgres database types to Go types
("varchar" to "string", "bigint" to "int64", ...), selecting the
nullable-wrapped mapping when the column is nullable. -/
def TranslateColumnType (c : Column) : Column :=
  if c.Nullable then
    match c.DBType with
    | "bigint" | "bigserial" => { c with Typ := "null.Int64" }
    | "integer" | "serial" => { c with Typ := "null.Int" }
    | "smallint" | "smallserial" => { c with Typ := "null.Int16" }
    | "decimal" | "numeric" | "double precision" | "money" => { c with Typ := "null.Float64" }
    | "real" => { c with Typ := "null.Float32" }
    | "bit" | "interval" | "bit varying" | "character" | "character varying"
    | "cidr" | "inet" | "json" | "macaddr" | "text" | "uuid" | "xml" =>
      { c with Typ := "null.String" }
    | "bytea" => { c with Typ := "[]byte" }
    | "boolean" => { c with Typ := "null.Bool" }
    | "date" | "time" | "timestamp without time zone" | "timestamp with time zone" =>
      { c with Typ := "null.Time" }
    | _ => { c with Typ := "null.String" }
  else
    match c.DBType with
    | "bigint" | "bigserial" => { c with Typ := "int64" }
    | "integer" | "serial" => { c with Typ := "int" }
    | "smallint" | "smallserial" => { c with Typ := "int16" }
    | "decimal" | "numeric" | "double precision" | "money" => { c with Typ := "float64" }
    | "real" => { c with Typ := "float32" }
    | "bit" | "interval" | "uuint" | "bit varying" | "character" | "character varying"
    | "cidr" | "inet" | "json" | "macaddr" | "text" | "uuid" | "xml" =>
      { c with Typ := "string" }
    | "bytea" => { c with Typ := "[]byte" }
    | "boolean" => { c with Typ := "bool" }
    | "date" | "time" | "timestamp without time zone" | "timestamp with time zone" =>
      { c with Typ := "time.Time" }
    | _ => { c with Typ := "string" }

/-- Embeds `mkFunctionName`: checks to see if the foreign key name is the same as the
local table name (minus _id suffix); if so (or for a join table) the function
is named by the plural foreign table name alone, otherwise the title-cased
stripped column name is prepended. -/
def mkFunctionName (fkeyTableSingular foreignTablePluralGo fkeyColumn : String)
    (toJoinTable : Bool) : String :=
  let colName := goTrimSuffix fkeyColumn "_id"
  if toJoinTable || fkeyTableSingular == colName then
    foreignTablePluralGo
  else
    titleCase colName ++ foreignTablePluralGo

/-- Local-table part of `RelationshipToOneTexts`. -/
structure RelOneLocalTable where
  NameGo : String
  ColumnNameGo : String
deriving Repr, DecidableEq

/-- Foreign-table part of `RelationshipToOneTexts`. -/
structure RelOneForeignTable where
  NameGo : String
  NamePluralGo : String
  Name : String
  ColumnNameGo : String
  ColumnName : String
deriving Repr, DecidableEq

/-- Function-name part of `RelationshipToOneTexts`. -/
structure RelOneFunction where
  PackageName : String
  Name : String
  ForeignName : String
  Varname : String
  Receiver : String
  OneToOne : Bool
  LocalAssignment : String
  ForeignAssignment : String
deriving Repr, DecidableEq

/-- Embeds `RelationshipToOneTexts`: contains text that will be used by templates. -/
structure RelationshipToOneTexts where
  FKey : ForeignKey
  LocalTable : RelOneLocalTable
  ForeignTable : RelOneForeignTable
  Function : RelOneFunction
deriving Repr, DecidableEq

/-- The local-assignment block shared by `textsFromForeignKey` and
`textsFromRelationship`: on a nullable column the title-cased column name is
joined by a dot to the column's semantic type with the `"null."` wrapper
stripped (the column is looked up in the local table); otherwise it is the
title-cased column name alone. -/
def localAssignmentText (table : Table) (colName : String) (nullable : Bool) :
    Option String :=
  if nullable then
    (table.GetColumn colName).map
      (fun col => titleCase colName ++ "." ++ trimNullDot col.Typ)
  else some (titleCase colName)

/-- The foreign-assignment block shared by `textsFromForeignKey` and
`textsFromRelationship`: as `localAssignmentText`, but the column is looked
up in the foreign table, itself looked up in the schema graph. -/
def foreignAssignmentText (tables : List Table) (ftName colName : String)
    (nullable : Bool) : Option String :=
  if nullable then
    (GetTable tables ftName).bind fun foreignTable =>
      (foreignTable.GetColumn colName).map
        (fun col => titleCase colName ++ "." ++ trimNullDot col.Typ)
  else some (titleCase colName)

/-- Embeds `textsFromForeignKey`: resolves all template text for the to-one direction
of a foreign key. The Go slice `table.Name[:1]` panics on an empty table
name, and `GetColumn`/`GetTable` fail on a missing column or table; both are
embedded as `none`. -/
def textsFromForeignKey (packageName : String) (tables : List Table)
    (table : Table) (fkey : ForeignKey) : Option RelationshipToOneTexts :=
  if table.Name.isEmpty then none else
  (localAssignmentText table fkey.Column fkey.Nullable).bind
    fun localAssignment =>
  (foreignAssignmentText tables fkey.ForeignTable fkey.ForeignColumn
      fkey.ForeignColumnNullable).bind fun foreignAssignment =>
  some
    { FKey := fkey
      LocalTable :=
        { NameGo := titleCase (singular table.Name)
          ColumnNameGo := titleCase (singular fkey.Column) }
      ForeignTable :=
        { Name := fkey.ForeignTable
          NameGo := titleCase (singular fkey.ForeignTable)
          NamePluralGo := titleCase (plural fkey.ForeignTable)
          ColumnName := fkey.ForeignColumn
          ColumnNameGo := titleCase (singular fkey.ForeignColumn) }
      Function :=
        { PackageName := packageName
          Name := titleCase (singular (goTrimSuffix fkey.Column "_id"))
          ForeignName := mkFunctionName (singular fkey.ForeignTable)
            (titleCase ((if fkey.Unique then singular else plural) fkey.Table))
            fkey.Column false
          Varname := camelCase (singular fkey.ForeignTable)
          Receiver := lowerFirst table.Name
          OneToOne := false
          LocalAssignment := localAssignment
          ForeignAssignment := foreignAssignment } }

/-- Local-table part of `RelationshipToManyTexts`. -/
structure RelManyLocalTable where
  NameGo : String
  NameSingular : String
  ColumnNameGo : String
deriving Repr, DecidableEq

/-- Foreign-table part of `RelationshipToManyTexts`. -/
structure RelManyForeignTable where
  NameGo : String
  NameSingular : String
  NamePluralGo : String
  NameHumanReadable : String
  ColumnNameGo : String
  Slice : String
deriving Repr, DecidableEq

/-- Function-name part of `RelationshipToManyTexts`. -/
structure RelManyFunction where
  Name : String
  ForeignName : String
  Receiver : String
  LocalAssignment : String
  ForeignAssignment : String
deriving Repr, DecidableEq

/-- Embeds `RelationshipToManyTexts`: contains text that will be used by templates. -/
structure RelationshipToManyTexts where
  LocalTable : RelManyLocalTable
  ForeignTable : RelManyForeignTable
  Function : RelManyFunction
deriving Repr, DecidableEq

/-- Embeds `textsFromRelationship`: creates a struct that does a lot of the text
transformation in advance for a given to-many relationship. As in
`textsFromForeignKey`, the empty-name slice panic and failing lookups are
embedded as `none`. -/
def textsFromRelationship (tables : List Table) (table : Table)
    (rel : ToManyRelationship) : Option RelationshipToManyTexts :=
  if table.Name.isEmpty then none else
  (localAssignmentText table rel.Column rel.Nullable).bind
    fun localAssignment =>
  (foreignAssignmentText tables rel.ForeignTable rel.ForeignColumn
      rel.ForeignColumnNullable).bind fun foreignAssignment =>
  some
    { LocalTable :=
        { NameSingular := singular table.Name
          NameGo := titleCase (singular table.Name)
          ColumnNameGo := titleCase rel.Column }
      ForeignTable :=
        { NameSingular := singular rel.ForeignTable
          NamePluralGo := titleCase (plural rel.ForeignTable)
          NameGo := titleCase (singular rel.ForeignTable)
          ColumnNameGo := titleCase rel.ForeignColumn
          Slice := titleCase (singular rel.ForeignTable) ++ "Slice"
          NameHumanReadable := underscoresToSpaces rel.ForeignTable }
      Function :=
        { Receiver := lowerFirst table.Name
          Name := mkFunctionName (singular table.Name)
            (titleCase (plural rel.ForeignTable)) rel.ForeignColumn rel.ToJoinTable
          ForeignName := titleCase
            ((if rel.ToJoinTable then plural else singular)
              (goTrimSuffix
                (if rel.ToJoinTable then rel.JoinLocalColumn else rel.ForeignColumn)
                "_id"))
          LocalAssignment := localAssignment
          ForeignAssignment := foreignAssignment } }

/-- One scanned row of the catalog query issued by `Columns`: column name,
data type, the default expression as reported (NULL embedded as `none`), the
`is_nullable` flag string, and the computed uniqueness flag. -/
structure RawColumnRow where
  colName : String
  colType : String
  defaultPtr : Option String
  nullable : String
  unique : Bool
deriving Repr, DecidableEq

/-- Loop body of `Columns` (postgres driver): builds one `bdb.Column` from a
scanned catalog row, substituting `""` when the catalog default is NULL. -/
def columnFromRow (r : RawColumnRow) : Column :=
  let colDefault := match r.defaultPtr with
    | none => ""
    | some d => d
  { Name := r.colName
    DBType := r.colType
    Default := colDefault
    Nullable := r.nullable == "YES"
    Unique := r.unique
    Validated := isValidated r.colType
    Typ := "" }

/-- Embeds `Columns` (postgres driver), success path: every scanned row becomes one
`bdb.Column`, in catalog order. -/
def Columns (rows : List RawColumnRow) : List Column :=
  rows.map columnFromRow

/-- Outcome of a catalog query row scan: `none` models `sql.ErrNoRows`. -/
abbrev DBResult (α : Type) := Except String α

/-- Embeds `PrimaryKeyInfo`: looks up the primary key for a table. `nameRes` is the
outcome of the constraint-name query (`Except.ok none` embeds
`sql.ErrNoRows`, i.e. no primary-key constraint); `colsRes` is the outcome of
the key-column query for a given constraint name. -/
def PrimaryKeyInfo (nameRes : DBResult (Option String))
    (colsRes : String → DBResult (List String)) :
    DBResult (Option PrimaryKey) :=
  match nameRes with
  | .error e => .error e
  | .ok none => .ok none
  | .ok (some nm) =>
    match colsRes nm with
    | .error e => .error e
    | .ok cols => .ok (some { Name := nm, Columns := cols })

/-- C1 counterexample: neither of the claimed return values is what
`mkFunctionName` produces. The disambiguating case concatenates the
title-cased stripped column name with the plural foreign-table argument, so
`("invoice", "Customers", "billing_customer_id", false)` yields
`"BillingCustomerCustomers"`, not `"BillingCustomers"`; and since
`"customer" ≠ "invoice"` the second call also takes the disambiguating
branch, yielding `"CustomerCustomers"`, not `"Customers"`. -/
theorem mkFunctionName_spec_example_false :
    mkFunctionName "invoice" "Customers" "billing_customer_id" false ≠ "BillingCustomers" ∧
    mkFunctionName "invoice" "Customers" "customer_id" false ≠ "Customers" := by
  decide

/-- C1 (amended): `mkFunctionName("invoice", "Customers",
"billing_customer_id", false)` returns exactly `"BillingCustomerCustomers"`
and `mkFunctionName("invoice", "Customers", "customer_id", false)` returns
exactly `"CustomerCustomers"`; the two generated names are distinct, so the
two hypothetical foreign keys on the same table do not collide. -/
theorem mkFunctionName_disambiguating_names :
    mkFunctionName "invoice" "Customers" "billing_customer_id" false
      = "BillingCustomerCustomers" ∧
    mkFunctionName "invoice" "Customers" "customer_id" false = "CustomerCustomers" ∧
    mkFunctionName "invoice" "Customers" "billing_customer_id" false
      ≠ mkFunctionName "invoice" "Customers" "customer_id" false := by
  decide

/-- C3: for every singular table name `s`, plural foreign-table name `p` and
column name `c`, `mkFunctionName s p c true = p` regardless of `c`; and when
the join-table flag is false and `c` with the suffix `"_id"` stripped equals
`s`, `mkFunctionName s p c false = p` as well. -/
theorem mkFunctionName_joinTable_and_obvious (s p c : String) :
    mkFunctionName s p c true = p ∧
    (goTrimSuffix c "_id" = s → mkFunctionName s p c false = p) := by
  refine ⟨rfl, fun h => ?_⟩
  simp [mkFunctionName, h]

/-- Witness for C3 at `("customer", "Invoices", "customer_id")`, where the
stripped column name equals the singular table name. -/
theorem mkFunctionName_joinTable_and_obvious_witness :
    mkFunctionName "customer" "Invoices" "customer_id" true = "Invoices" ∧
    mkFunctionName "customer" "Invoices" "customer_id" false = "Invoices" :=
  ⟨(mkFunctionName_joinTable_and_obvious "customer" "Invoices" "customer_id").1,
   (mkFunctionName_joinTable_and_obvious "customer" "Invoices" "customer_id").2
     (by decide)⟩

/-- C2 counterexample: at native type `"bytea"` the nullable and
non-nullable translations coincide (both are `"[]byte"`), on two columns
(field order: name, semantic type, default, database type, nullable, unique,
validated) that differ only in their `Nullable` flag — the two semantic-type
universes are not disjoint. -/
theorem translate_bytea_same_type :
    (TranslateColumnType ⟨"data", "", "", "bytea", true, false, false⟩).Typ =
      (TranslateColumnType ⟨"data", "", "", "bytea", false, false, false⟩).Typ ∧
    (TranslateColumnType ⟨"data", "", "", "bytea", true, false, false⟩).Typ =
      "[]byte" := by
  decide

/-- Every nullable translation other than at `"bytea"` is one of the
`"null."`-wrapped semantic types. -/
theorem translate_nullable_mem (c : Column) (h : c.Nullable = true)
    (hb : c.DBType ≠ "bytea") :
    (TranslateColumnType c).Typ ∈
      ["null.Int64", "null.Int", "null.Int16", "null.Float64", "null.Float32",
        "null.String", "null.Bool", "null.Time"] := by
  unfold TranslateColumnType
  rw [h]
  simp only [if_true]
  split <;> simp_all

/-- Every non-nullable translation is one of the bare semantic types. -/
theorem translate_bare_mem (c : Column) (h : c.Nullable = false) :
    (TranslateColumnType c).Typ ∈
      ["int64", "int", "int16", "float64", "float32", "string", "[]byte",
        "bool", "time.Time"] := by
  unfold TranslateColumnType
  rw [h]
  simp only [Bool.false_eq_true, if_false]
  split <;> simp_all

/-- C2 (amended): for every native database type string other than
`"bytea"`, the semantic type produced by `TranslateColumnType` on a nullable
column differs from the one produced on a non-nullable column with the same
`DBType` — the nullable translation is `"null."`-wrapped (except at
`"bytea"`, where both sides yield `"[]byte"`) while the bare translation
never is. -/
theorem translate_nullability_disjoint (c₁ c₂ : Column)
    (ht : c₁.DBType = c₂.DBType) (hb : c₁.DBType ≠ "bytea")
    (h₁ : c₁.Nullable = true) (h₂ : c₂.Nullable = false) :
    (TranslateColumnType c₁).Typ ≠ (TranslateColumnType c₂).Typ := by
  intro heq
  have m₁ := translate_nullable_mem c₁ h₁ hb
  have m₂ := translate_bare_mem c₂ h₂
  rw [heq] at m₁
  have disj : ∀ a ∈ ["null.Int64", "null.Int", "null.Int16", "null.Float64",
      "null.Float32", "null.String", "null.Bool", "null.Time"],
      a ∈ ["int64", "int", "int16", "float64", "float32", "string", "[]byte",
        "bool", "time.Time"] → False := by decide
  exact disj _ m₁ m₂

/-- Witness for C2 (amended) at native type `"integer"`:
`"null.Int" ≠ "int"`. -/
theorem translate_nullability_disjoint_witness :
    (TranslateColumnType ⟨"age", "", "", "integer", true, false, false⟩).Typ ≠
      (TranslateColumnType ⟨"age", "", "", "integer", false, false, false⟩).Typ :=
  translate_nullability_disjoint _ _ rfl (by decide) rfl rfl

/-- C9: `TranslateColumnType` modifies only the semantic-type field: name,
database type, default, nullability, uniqueness and validation flags of the
result all equal those of the argument. -/
theorem translate_frame (c : Column) :
    (TranslateColumnType c).Name = c.Name ∧
    (TranslateColumnType c).DBType = c.DBType ∧
    (TranslateColumnType c).Default = c.Default ∧
    (TranslateColumnType c).Nullable = c.Nullable ∧
    (TranslateColumnType c).Unique = c.Unique ∧
    (TranslateColumnType c).Validated = c.Validated := by
  unfold TranslateColumnType
  split <;> split <;> simp

/-- The native type strings listed in the nullable mapping table of
`TranslateColumnType`. -/
def nullableTypeKeys : List String :=
  ["bigint", "bigserial", "integer", "serial", "smallint", "smallserial",
    "decimal", "numeric", "double precision", "money", "real", "bit",
    "interval", "bit varying", "character", "character varying", "cidr",
    "inet", "json", "macaddr", "text", "uuid", "xml", "bytea", "boolean",
    "date", "time", "timestamp without time zone", "timestamp with time zone"]

/-- The native type strings listed in the non-nullable mapping table of
`TranslateColumnType` (these additionally contain `"uuint"`). -/
def bareTypeKeys : List String :=
  ["bigint", "bigserial", "integer", "serial", "smallint", "smallserial",
    "decimal", "numeric", "double precision", "money", "real", "bit",
    "interval", "uuint", "bit varying", "character", "character varying",
    "cidr", "inet", "json", "macaddr", "text", "uuid", "xml", "bytea",
    "boolean", "date", "time", "timestamp without time zone",
    "timestamp with time zone"]

/-- C4: `TranslateColumnType` is total — it always returns a column whose
semantic type is set (non-empty) — and any native type string not listed in
the corresponding mapping table receives the textual default: `"null.String"`
on a nullable column and `"string"` on a non-nullable one. -/
theorem translate_total_with_default (c : Column) :
    (TranslateColumnType c).Typ ≠ "" ∧
    (c.Nullable = true → c.DBType ∉ nullableTypeKeys →
      (TranslateColumnType c).Typ = "null.String") ∧
    (c.Nullable = false → c.DBType ∉ bareTypeKeys →
      (TranslateColumnType c).Typ = "string") := by
  refine ⟨?_, fun h hk => ?_, fun h hk => ?_⟩
  · unfold TranslateColumnType
    split <;> split <;> simp
  · unfold TranslateColumnType
    rw [h]
    simp only [if_true]
    split <;> first | rfl | simp_all [nullableTypeKeys]
  · unfold TranslateColumnType
    rw [h]
    simp only [Bool.false_eq_true, if_false]
    split <;> first | rfl | simp_all [bareTypeKeys]

/-- Witness for C4 at the unrecognised native type `"hstore"`, nullable and
non-nullable. -/
theorem translate_total_with_default_witness :
    (TranslateColumnType ⟨"tags", "", "", "hstore", true, false, false⟩).Typ ≠ "" ∧
    (TranslateColumnType ⟨"tags", "", "", "hstore", true, false, false⟩).Typ
      = "null.String" ∧
    (TranslateColumnType ⟨"tags", "", "", "hstore", false, false, false⟩).Typ
      = "string" :=
  ⟨(translate_total_with_default ⟨"tags", "", "", "hstore", true, false, false⟩).1,
   (translate_total_with_default ⟨"tags", "", "", "hstore", true, false, false⟩).2.1
     rfl (by decide),
   (translate_total_with_default ⟨"tags", "", "", "hstore", false, false, false⟩).2.2
     rfl (by decide)⟩

/-- Decomposition of a successful `textsFromForeignKey` run: the table name
is non-empty and each `Function` text field equals its defining expression. -/
theorem textsFromForeignKey_some_parts (packageName : String)
    (tables : List Table) (table : Table) (fkey : ForeignKey)
    (r : RelationshipToOneTexts)
    (hr : textsFromForeignKey packageName tables table fkey = some r) :
    table.Name ≠ "" ∧
    localAssignmentText table fkey.Column fkey.Nullable
      = some r.Function.LocalAssignment ∧
    foreignAssignmentText tables fkey.ForeignTable fkey.ForeignColumn
      fkey.ForeignColumnNullable = some r.Function.ForeignAssignment ∧
    r.Function.Receiver = lowerFirst table.Name := by
  unfold textsFromForeignKey at hr
  split at hr
  · exact absurd hr (by simp)
  · next hne =>
    rcases Option.bind_eq_some.mp hr with ⟨la, hla, hr₂⟩
    rcases Option.bind_eq_some.mp hr₂ with ⟨fa, hfa, hr₃⟩
    have hrr := Option.some.inj hr₃
    subst hrr
    refine ⟨?_, hla, hfa, rfl⟩
    intro hempty
    rw [hempty] at hne
    exact absurd hne (by decide)

/-- Decomposition of a successful `textsFromRelationship` run: the table name
is non-empty and the receiver is the lower-cased first character. -/
theorem textsFromRelationship_some_parts (tables : List Table) (table : Table)
    (rel : ToManyRelationship) (r : RelationshipToManyTexts)
    (hr : textsFromRelationship tables table rel = some r) :
    table.Name ≠ "" ∧
    localAssignmentText table rel.Column rel.Nullable
      = some r.Function.LocalAssignment ∧
    foreignAssignmentText tables rel.ForeignTable rel.ForeignColumn
      rel.ForeignColumnNullable = some r.Function.ForeignAssignment ∧
    r.Function.Receiver = lowerFirst table.Name := by
  unfold textsFromRelationship at hr
  split at hr
  · exact absurd hr (by simp)
  · next hne =>
    rcases Option.bind_eq_some.mp hr with ⟨la, hla, hr₂⟩
    rcases Option.bind_eq_some.mp hr₂ with ⟨fa, hfa, hr₃⟩
    have hrr := Option.some.inj hr₃
    subst hrr
    refine ⟨?_, hla, hfa, rfl⟩
    intro hempty
    rw [hempty] at hne
    exact absurd hne (by decide)

/-- Shape of a successful local-assignment computation: a dotted
wrapper-stripped access for a nullable column, the bare title-cased column
name otherwise. -/
theorem localAssignmentText_spec (table : Table) (colName : String)
    (nullable : Bool) (s : String)
    (hs : localAssignmentText table colName nullable = some s) :
    (nullable = true → ∃ col, table.GetColumn colName = some col ∧
      s = titleCase colName ++ "." ++ trimNullDot col.Typ) ∧
    (nullable = false → s = titleCase colName) := by
  cases nullable with
  | false =>
    simp only [localAssignmentText, Bool.false_eq_true, if_false,
      Option.some.injEq] at hs
    exact ⟨fun h => absurd h (by simp), fun _ => hs.symm⟩
  | true =>
    simp only [localAssignmentText, if_true, Option.map_eq_some'] at hs
    rcases hs with ⟨col, hcol, hval⟩
    exact ⟨fun _ => ⟨col, hcol, hval.symm⟩, fun h => absurd h (by simp)⟩

/-- Shape of a successful foreign-assignment computation, looked up through
the schema graph. -/
theorem foreignAssignmentText_spec (tables : List Table)
    (ftName colName : String) (nullable : Bool) (s : String)
    (hs : foreignAssignmentText tables ftName colName nullable = some s) :
    (nullable = true → ∃ ft col, GetTable tables ftName = some ft ∧
      ft.GetColumn colName = some col ∧
      s = titleCase colName ++ "." ++ trimNullDot col.Typ) ∧
    (nullable = false → s = titleCase colName) := by
  cases nullable with
  | false =>
    simp only [foreignAssignmentText, Bool.false_eq_true, if_false,
      Option.some.injEq] at hs
    exact ⟨fun h => absurd h (by simp), fun _ => hs.symm⟩
  | true =>
    simp only [foreignAssignmentText, if_true, Option.bind_eq_some,
      Option.map_eq_some'] at hs
    rcases hs with ⟨ft, hft, col, hcol, hval⟩
    exact ⟨fun _ => ⟨ft, col, hft, hcol, hval.symm⟩, fun h => absurd h (by simp)⟩

/-- C6: for every foreign key successfully processed by
`textsFromForeignKey`, when the foreign-key column is nullable the local
assignment is the title-cased column name, a dot, and the column's semantic
type with the `"null."` wrapper stripped; when non-nullable it is the
title-cased column name alone; and symmetrically the foreign assignment is
built from the foreign column and its nullability. -/
theorem textsFromForeignKey_assignment_texts (packageName : String)
    (tables : List Table) (table : Table) (fkey : ForeignKey)
    (r : RelationshipToOneTexts)
    (hr : textsFromForeignKey packageName tables table fkey = some r) :
    (fkey.Nullable = true → ∃ col, table.GetColumn fkey.Column = some col ∧
      r.Function.LocalAssignment =
        titleCase fkey.Column ++ "." ++ trimNullDot col.Typ) ∧
    (fkey.Nullable = false →
      r.Function.LocalAssignment = titleCase fkey.Column) ∧
    (fkey.ForeignColumnNullable = true → ∃ ft col,
      GetTable tables fkey.ForeignTable = some ft ∧
      ft.GetColumn fkey.ForeignColumn = some col ∧
      r.Function.ForeignAssignment =
        titleCase fkey.ForeignColumn ++ "." ++ trimNullDot col.Typ) ∧
    (fkey.ForeignColumnNullable = false →
      r.Function.ForeignAssignment = titleCase fkey.ForeignColumn) := by
  obtain ⟨-, hla, hfa, -⟩ :=
    textsFromForeignKey_some_parts packageName tables table fkey r hr
  obtain ⟨hl₁, hl₂⟩ := localAssignmentText_spec _ _ _ _ hla
  obtain ⟨hf₁, hf₂⟩ := foreignAssignmentText_spec _ _ _ _ _ hfa
  exact ⟨hl₁, hl₂, hf₁, hf₂⟩

/-- Example schema: an `employees` table with primary key `id` (integer, not
null) and a nullable self-referencing foreign-key column `manager_id`
(semantic types already translated). Column field order: name, semantic
type, default, database type, nullable, unique, validated. -/
def employeesTable : Table :=
  ⟨"employees",
    [⟨"id", "int", "", "integer", false, true, false⟩,
      ⟨"manager_id", "null.Int", "", "integer", true, false, false⟩],
    some ⟨"employees_pkey", ["id"]⟩, []⟩

/-- The self-referencing foreign key `employees.manager_id → employees.id`
(nullable source column, non-nullable unique destination column). -/
def managerFKey : ForeignKey :=
  ⟨"employees_manager_id_fkey", "employees", "manager_id", true, false,
    "employees", "id", false, true⟩

/-- Modelled from the spec: the `ToManyRelationship` that the relationship
inference derives for `employeesTable` from `managerFKey` (the spec's §4.4:
the destination-to-source direction of the foreign key, carrying the foreign
key's column and nullability on the foreign side). -/
def managerToMany : ToManyRelationship :=
  ⟨"employees", "id", false, true, "employees", "manager_id", true, false,
    false, ""⟩

/-- The to-one descriptor produced for `managerFKey`. -/
def managerTexts : RelationshipToOneTexts :=
  ⟨managerFKey,
    ⟨"Employee", "ManagerId"⟩,
    ⟨"Employee", "Employees", "employees", "Id", "id"⟩,
    ⟨"models", "Manager", "ManagerEmployees", "employee", "e", false,
      "ManagerId.Int", "Id"⟩⟩

/-- Evaluation: `textsFromForeignKey` on the employees example succeeds and produces
`managerTexts`. -/
theorem managerTexts_eq :
    textsFromForeignKey "models" [employeesTable] employeesTable managerFKey
      = some managerTexts := by
  decide

/-- C5 counterexample: on the `employees.manager_id → employees.id`
self-referencing foreign key, the to-one descriptor's `Function.ForeignName`
and the to-many descriptor's `Function.Name` are the same string
`"ManagerEmployees"` (both name the single reverse accessor), so the three
generated names are not pairwise distinct. -/
theorem selfref_foreignName_equals_toMany_name :
    (textsFromForeignKey "models" [employeesTable] employeesTable managerFKey).map
        (fun r => r.Function.ForeignName) =
      (textsFromRelationship [employeesTable] employeesTable managerToMany).map
        (fun r => r.Function.Name) ∧
    (textsFromForeignKey "models" [employeesTable] employeesTable managerFKey).map
        (fun r => r.Function.ForeignName) = some "ManagerEmployees" := by
  decide

/-- C5 (amended): on the self-referencing foreign key the to-one
`Function.Name` is `"Manager"`, distinct from the to-one
`Function.ForeignName` and from the to-many name, which coincide as
`"ManagerEmployees"`; and all of these names differ from the generic
relationship name `"Employees"` derived from the table name alone. -/
theorem selfref_names_disambiguated :
    (textsFromForeignKey "models" [employeesTable] employeesTable managerFKey).map
        (fun r => (r.Function.Name, r.Function.ForeignName))
      = some ("Manager", "ManagerEmployees") ∧
    (textsFromRelationship [employeesTable] employeesTable managerToMany).map
        (fun r => r.Function.Name) = some "ManagerEmployees" ∧
    ("Manager" : String) ≠ "ManagerEmployees" ∧
    ("Manager" : String) ≠ titleCase (plural "employees") ∧
    ("ManagerEmployees" : String) ≠ titleCase (plural "employees") := by
  decide

/-- Witness for C6 on the employees example: the nullable `manager_id`
column yields the dotted wrapper-stripped access `"ManagerId.Int"`, the
non-nullable foreign column `id` the bare title-cased `"Id"`. -/
theorem textsFromForeignKey_assignment_texts_witness :
    managerTexts.Function.LocalAssignment = "ManagerId.Int" ∧
    managerTexts.Function.ForeignAssignment = "Id" := by
  obtain ⟨h₁, -, -, h₄⟩ :=
    textsFromForeignKey_assignment_texts "models" [employeesTable]
      employeesTable managerFKey managerTexts managerTexts_eq
  obtain ⟨col, hcol, heq⟩ := h₁ rfl
  have hc : (⟨"manager_id", "null.Int", "", "integer", true, false, false⟩ : Column)
      = col := Option.some.inj ((by decide :
        employeesTable.GetColumn "manager_id"
          = some ⟨"manager_id", "null.Int", "", "integer", true, false, false⟩).symm.trans
      hcol)
  constructor
  · rw [heq, ← hc]
    decide
  · rw [h₄ rfl]
    decide

/-- C10: the receiver computation `strings.ToLower(table.Name[:1])` requires
a non-empty table name. On an empty name both text builders fail (the Go
slice is out of bounds); on every successful run the table name was
non-empty and the receiver is the lower-cased first character; and with a
non-empty name (and no nullable columns requiring lookups) the computation
succeeds. -/
theorem receiver_requires_nonempty_name (packageName : String)
    (tables : List Table) (table : Table) (fkey : ForeignKey)
    (rel : ToManyRelationship) :
    (table.Name = "" →
      textsFromForeignKey packageName tables table fkey = none ∧
      textsFromRelationship tables table rel = none) ∧
    (∀ r, textsFromForeignKey packageName tables table fkey = some r →
      table.Name ≠ "" ∧ r.Function.Receiver = lowerFirst table.Name) ∧
    (∀ r, textsFromRelationship tables table rel = some r →
      table.Name ≠ "" ∧ r.Function.Receiver = lowerFirst table.Name) ∧
    (table.Name ≠ "" → fkey.Nullable = false →
      fkey.ForeignColumnNullable = false →
      (textsFromForeignKey packageName tables table fkey).isSome = true) := by
  refine ⟨fun h => ?_, fun r hr => ?_, fun r hr => ?_, fun hne hn hfn => ?_⟩
  · constructor
    · unfold textsFromForeignKey
      rw [h]
      rfl
    · unfold textsFromRelationship
      rw [h]
      rfl
  · obtain ⟨hne, -, -, hrec⟩ :=
      textsFromForeignKey_some_parts packageName tables table fkey r hr
    exact ⟨hne, hrec⟩
  · obtain ⟨hne, -, -, hrec⟩ :=
      textsFromRelationship_some_parts tables table rel r hr
    exact ⟨hne, hrec⟩
  · unfold textsFromForeignKey
    have hemp : table.Name.isEmpty = false := by
      cases hh : table.Name.isEmpty
      · rfl
      · exact absurd ((String.isEmpty_iff _).mp hh) hne
    simp [hemp, localAssignmentText, foreignAssignmentText, hn, hfn]

/-- Witness for C10: on the employees example the receiver is `"e"`, and on
a table whose name is empty the builders return no result. -/
theorem receiver_requires_nonempty_name_witness :
    managerTexts.Function.Receiver = lowerFirst "employees" ∧
    textsFromForeignKey "models" [] ⟨"", [], none, []⟩ managerFKey = none := by
  constructor
  · exact ((receiver_requires_nonempty_name "models" [employeesTable]
      employeesTable managerFKey managerToMany).2.1 managerTexts
        managerTexts_eq).2
  · exact ((receiver_requires_nonempty_name "models" [] ⟨"", [], none, []⟩
      managerFKey managerToMany).1 rfl).1

/-- C7: when a table has no primary-key constraint (the constraint-name
query returns no rows), `PrimaryKeyInfo` returns an absent primary key with
no error — absence is never reported as an error. -/
theorem PrimaryKeyInfo_absent_not_error (nameRes : DBResult (Option String))
    (colsRes : String → DBResult (List String)) (h : nameRes = .ok none) :
    PrimaryKeyInfo nameRes colsRes = .ok none := by
  subst h
  rfl

/-- Witness for C7: no primary-key constraint, even with a failing
key-column query, yields `ok none`. -/
theorem PrimaryKeyInfo_absent_not_error_witness :
    PrimaryKeyInfo (.ok none) (fun _ => .error "unreachable") = .ok none :=
  PrimaryKeyInfo_absent_not_error _ _ rfl

/-- C8: every row read by `Columns` becomes a column of the result whose
`Default` is the empty string when the catalog default is absent and the
reported expression verbatim when present. -/
theorem Columns_default_handling (rows : List RawColumnRow)
    (row : RawColumnRow) (h : row ∈ rows) :
    columnFromRow row ∈ Columns rows ∧
    (row.defaultPtr = none → (columnFromRow row).Default = "") ∧
    (∀ d, row.defaultPtr = some d → (columnFromRow row).Default = d) := by
  refine ⟨List.mem_map_of_mem _ h, fun hn => ?_, fun d hd => ?_⟩
  · simp [columnFromRow, hn]
  · simp [columnFromRow, hd]

/-- Witness for C8 on two concrete rows: an absent catalog default becomes
`""`, a present default expression is kept verbatim. -/
theorem Columns_default_handling_witness :
    columnFromRow ⟨"id", "integer", none, "NO", true⟩ ∈
      Columns [⟨"id", "integer", none, "NO", true⟩,
        ⟨"created", "date", some "now()", "YES", false⟩] ∧
    (columnFromRow ⟨"id", "integer", none, "NO", true⟩).Default = "" ∧
    (columnFromRow ⟨"created", "date", some "now()", "YES", false⟩).Default
      = "now()" := by
  obtain ⟨h₁, h₂, -⟩ := Columns_default_handling
    [⟨"id", "integer", none, "NO", true⟩,
      ⟨"created", "date", some "now()", "YES", false⟩]
    ⟨"id", "integer", none, "NO", true⟩ (by decide)
  obtain ⟨-, -, h₃⟩ := Columns_default_handling
    [⟨"id", "integer", none, "NO", true⟩,
      ⟨"created", "date", some "now()", "YES", false⟩]
    ⟨"created", "date", some "now()", "YES", false⟩ (by decide)
  exact ⟨h₁, h₂ rfl, h₃ "now()" rfl⟩
